import Mathlib

set_option maxHeartbeats 1000000
set_option maxRecDepth 8000

/-!
Verification of the tenant secret management subsystem of the enableops
repository (`enablebot/shared/encryption/encryption.py` and the simple
`encrypt_token` of `enablebot/web/main.py`).

Modelling conventions:
* Python byte strings and text strings are modelled as `List Nat`
  (their UTF-8 byte sequences); all the strings the claims quantify over
  (Slack tokens, tenant ids) are byte-valued.
* `base64.b64encode` / `base64.b64decode` (external library) are
  implemented concretely (RFC 4648 alphabet with padding).
* `AESGCM` from the `cryptography` library (external dependency) is
  modelled as an ideal AEAD: the keystream is abstracted away (the
  ciphertext body carries the plaintext) and the authentication tag
  binds the key, the nonce and the AAD, so authenticated decryption
  succeeds exactly when key, nonce and AAD match.
* Randomness (`secrets.token_bytes`, generated key ids) is passed in as
  explicit arguments.
* Wall-clock time (`datetime.now()`) is an explicit `now : Nat`.
* Network effects (the Supabase REST client) are modelled by explicit
  state: the key table, plus booleans describing whether the client is
  configured and whether each kind of request succeeds.
-/

abbrev Bytes := List Nat

/-- ASCII code of the standard base64 alphabet character for a sextet. -/
def sextetChar (s : Nat) : Nat :=
  if s < 26 then 65 + s
  else if s < 52 then 97 + (s - 26)
  else if s < 62 then 48 + (s - 52)
  else if s = 62 then 43
  else 47

/-- Inverse of `sextetChar`: sextet value of a base64 alphabet character. -/
def charSextet (c : Nat) : Option Nat :=
  if 65 ≤ c ∧ c ≤ 90 then some (c - 65)
  else if 97 ≤ c ∧ c ≤ 122 then some (c - 97 + 26)
  else if 48 ≤ c ∧ c ≤ 57 then some (c - 48 + 52)
  else if c = 43 then some 62
  else if c = 47 then some 63
  else none

/-- Models Python `base64.b64encode` on a byte string (61 is the ASCII
code of the padding character). -/
def b64encode : Bytes → Bytes
  | [] => []
  | [a] => [sextetChar (a / 4), sextetChar (a % 4 * 16), 61, 61]
  | [a, b] => [sextetChar (a / 4), sextetChar (a % 4 * 16 + b / 16),
               sextetChar (b % 16 * 4), 61]
  | a :: b :: c :: rest =>
      sextetChar (a / 4) :: sextetChar (a % 4 * 16 + b / 16) ::
      sextetChar (b % 16 * 4 + c / 64) :: sextetChar (c % 64) :: b64encode rest

/-- Decode a doubly padded final quad (one byte). -/
def decodePad2 (c1 c2 : Nat) : Option Bytes :=
  match charSextet c1, charSextet c2 with
  | some s1, some s2 => some [s1 * 4 + s2 / 16]
  | _, _ => none

/-- Decode a singly padded final quad (two bytes). -/
def decodePad3 (c1 c2 c3 : Nat) : Option Bytes :=
  match charSextet c1, charSextet c2, charSextet c3 with
  | some s1, some s2, some s3 =>
      some [s1 * 4 + s2 / 16, s2 % 16 * 16 + s3 / 4]
  | _, _, _ => none

/-- Decode an unpadded quad (three bytes). -/
def decodeQuad (c1 c2 c3 c4 : Nat) : Option Bytes :=
  match charSextet c1, charSextet c2, charSextet c3, charSextet c4 with
  | some s1, some s2, some s3, some s4 =>
      some [s1 * 4 + s2 / 16, s2 % 16 * 16 + s3 / 4, s3 % 4 * 64 + s4]
  | _, _, _, _ => none

/-- Models Python `base64.b64decode` on the image of `b64encode`
(fails on input that is not a well-formed base64 string). -/
def b64decode : Bytes → Option Bytes
  | [] => some []
  | c1 :: c2 :: c3 :: c4 :: rest =>
      if c3 = 61 ∧ c4 = 61 ∧ rest = [] then decodePad2 c1 c2
      else if c4 = 61 ∧ rest = [] then decodePad3 c1 c2 c3
      else
        match decodeQuad c1 c2 c3 c4, b64decode rest with
        | some bs, some tl => some (bs ++ tl)
        | _, _ => none
  | _ => none

/-- Modelled authentication tag of the ideal AEAD standing for `AESGCM`
from the `cryptography` library: it binds key, nonce and AAD (the final
entry records the AAD length so the tag boundary is unambiguous). -/
def gcmTag (key nonce aad : Bytes) : Bytes :=
  key ++ nonce ++ aad ++ [aad.length]

/-- Modelled `AESGCM.encrypt` (external library, idealized): the
ciphertext body carries the plaintext and is followed by the tag. -/
def aesgcmEncrypt (key nonce pt aad : Bytes) : Bytes :=
  pt ++ gcmTag key nonce aad

/-- Modelled `AESGCM.decrypt` (external library, idealized): checks that
the ciphertext ends with the tag recomputed from key, nonce and AAD,
returning the plaintext on success and `none` (`InvalidTag`) otherwise. -/
def aesgcmDecrypt (key nonce ct aad : Bytes) : Option Bytes :=
  if (gcmTag key nonce aad).length ≤ ct.length ∧
      ct.drop (ct.length - (gcmTag key nonce aad).length) = gcmTag key nonce aad
  then some (ct.take (ct.length - (gcmTag key nonce aad).length))
  else none

deriving instance DecidableEq for Except

/-- Status column of the `encryption_keys` table. -/
inductive KeyStatus
  | active
  | expired
  | revoked
deriving DecidableEq, Repr

/-- A row of the `encryption_keys` table (the KeyStore). `key_data` is
the base64 text of the key material, exactly as `_store_key` posts it. -/
structure StoreRecord where
  key_data : Bytes
  status : KeyStatus
  created_at : Nat
  expires_at : Nat
deriving DecidableEq, Repr

/-- An entry of `KeyManager.key_cache` (the in-memory dictionary value
`{key, created_at, expires_at}`). -/
structure CachedKey where
  key : Bytes
  created_at : Nat
  expires_at : Nat
deriving DecidableEq, Repr

/-- State of a `KeyManager` together with its view of the network: the
`encryption_keys` table, whether a Supabase client is configured
(`hasClient`), and whether each kind of request currently succeeds
(`getOk` for GET, `postOk` for the key POST, `rpcOk` for the rotation
RPC); a `false` flag stands for an exception or a non-2xx response. -/
structure KMState where
  key_cache : List (Bytes × CachedKey)
  store : List (Bytes × StoreRecord)
  hasClient : Bool
  getOk : Bool
  postOk : Bool
  rpcOk : Bool
deriving DecidableEq, Repr

/-- `timedelta(days=90)` in seconds. -/
def keyLifetime : Nat := 90 * 24 * 60 * 60

/-- Python dict lookup `key_cache[key_id]`. -/
def cacheLookup (c : List (Bytes × CachedKey)) (kid : Bytes) : Option CachedKey :=
  (c.find? (fun p => p.1 == kid)).map (fun p => p.2)

/-- Python dict assignment `key_cache[key_id] = entry`: replaces in
place when the key exists (keeping insertion order), appends otherwise. -/
def cacheInsert (c : List (Bytes × CachedKey)) (kid : Bytes) (e : CachedKey) :
    List (Bytes × CachedKey) :=
  if c.any (fun p => p.1 == kid) then
    c.map (fun p => if p.1 == kid then (kid, e) else p)
  else c ++ [(kid, e)]

/-- Python `del key_cache[key_id]`. -/
def cacheDelete (c : List (Bytes × CachedKey)) (kid : Bytes) :
    List (Bytes × CachedKey) :=
  c.filter (fun p => !(p.1 == kid))

/-- The GET issued by `KeyManager.get_key`: fetch the row whose id
matches and whose status is `active`; an absent client, a failed request
or an empty result all yield `none`. -/
def storeGetActive (store : List (Bytes × StoreRecord)) (hasClient getOk : Bool)
    (kid : Bytes) : Option StoreRecord :=
  if hasClient && getOk then
    ((store.filter (fun p => p.1 == kid && p.2.status == KeyStatus.active)).head?).map
      (fun p => p.2)
  else none

/-- The cache entry `get_key` builds from a fetched store row. -/
def cacheEntryOf (rec : StoreRecord) : CachedKey :=
  ⟨rec.key_data, rec.created_at, rec.expires_at⟩

/-- Store-fetch half of `KeyManager.get_key` (the code after the cache
check): on a hit the cache is repopulated from the row. -/
def getFromStore (σ : KMState) (kid : Bytes) : Option Bytes × KMState :=
  match storeGetActive σ.store σ.hasClient σ.getOk kid with
  | some rec =>
      (some rec.key_data,
       { σ with key_cache := cacheInsert σ.key_cache kid (cacheEntryOf rec) })
  | none => (none, σ)

/-- `KeyManager.get_key`: cache first (evicting an expired entry), then
the store. -/
def get_key (σ : KMState) (now : Nat) (kid : Bytes) : Option Bytes × KMState :=
  match cacheLookup σ.key_cache kid with
  | some e =>
      if now < e.expires_at then (some e.key, σ)
      else getFromStore { σ with key_cache := cacheDelete σ.key_cache kid } kid
  | none => getFromStore σ kid

/-- `KeyManager._store_key`: posts the key row; returns `false` (after
logging) when the client is missing, the request fails, or the response
is not 201 — the caller sees only the boolean. -/
def store_key (σ : KMState) (now : Nat) (kid kdata : Bytes) : Bool × KMState :=
  if σ.hasClient then
    if σ.postOk then
      (true, { σ with store :=
        σ.store ++ [(kid, ⟨kdata, KeyStatus.active, now, now + keyLifetime⟩)] })
    else (false, σ)
  else (false, σ)

/-- `KeyManager.generate_key`. The generated id and the 32 random key
bytes are passed in explicitly (they come from `secrets`). Note the
source ignores the result of `_store_key` and caches and returns the
key unconditionally. -/
def generate_key (σ : KMState) (now : Nat) (kid keyBytes : Bytes) : Bytes × KMState :=
  let kb64 := b64encode keyBytes
  let σ1 := (store_key σ now kid kb64).2
  let e : CachedKey := ⟨kb64, now, now + keyLifetime⟩
  (kid, { σ1 with key_cache := cacheInsert σ1.key_cache kid e })

/-- `KeyManager.get_active_key_id`: first cached entry that has not
expired, else generate a new key. -/
def get_active_key_id (σ : KMState) (now : Nat) (freshId freshKey : Bytes) :
    Bytes × KMState :=
  match σ.key_cache.find? (fun p => decide (now < p.2.expires_at)) with
  | some p => (p.1, σ)
  | none => generate_key σ now freshId freshKey

/-- Modelled from the spec: the database function
`rotate_encryption_keys` invoked over RPC is not part of src/; per the
spec it "marks store-side keys whose `expires_at <= now` as expired". -/
def rotateStore (store : List (Bytes × StoreRecord)) (now : Nat) :
    List (Bytes × StoreRecord) :=
  store.map (fun p =>
    if p.2.expires_at ≤ now && p.2.status == KeyStatus.active then
      (p.1, { p.2 with status := KeyStatus.expired })
    else p)

/-- `KeyManager.rotate_keys`: `none` models the error dictionaries; on
success the store rotation runs and expired cache entries are evicted,
returning the number of evicted entries. -/
def rotate_keys (σ : KMState) (now : Nat) : Option Nat × KMState :=
  if !σ.hasClient then (none, σ)
  else if σ.rpcOk then
    let evicted := σ.key_cache.filter (fun p => p.2.expires_at ≤ now)
    (some evicted.length,
     { σ with store := rotateStore σ.store now,
              key_cache := σ.key_cache.filter (fun p => decide (now < p.2.expires_at)) })
  else (none, σ)

/-- The distinguishable failure modes of the `EncryptionError`
exception raised by `encryption.py` (the source collapses them into one
exception class whose message text records the cause; the constructors
mirror those message texts). -/
inductive EncError
  | keyUnavailable (key_id : Bytes)
  | badKeyData
  | badCiphertext
  | authenticationFailed
  | invalidFormat
deriving DecidableEq, Repr

/-- ASCII bytes of the AAD lead text of `encrypt_token`. -/
def tenantLead : Bytes := [116, 101, 110, 97, 110, 116, 58]

/-- The AAD `"tenant:" + tenant_id` used by both `encrypt_token` and
`decrypt_token`. -/
def tenantAAD (tenant : Bytes) : Bytes := tenantLead ++ tenant

/-- `TokenEncryption.encrypt_token`: resolve the active key, decode its
base64 material, AES-GCM-encrypt the token with AAD bound to the
tenant, and return the base64 blob `nonce || ciphertext_and_tag`
together with the key id. `freshId`/`freshKey` feed a possible implicit
`generate_key`; `nonce` is the 12 random bytes of
`secrets.token_bytes(12)`. -/
def encrypt_token (σ : KMState) (now : Nat) (freshId freshKey nonce token tenant : Bytes) :
    Except EncError (Bytes × Bytes) × KMState :=
  let a := get_active_key_id σ now freshId freshKey
  match get_key a.2 now a.1 with
  | (none, σ2) => (Except.error (EncError.keyUnavailable a.1), σ2)
  | (some kb64, σ2) =>
      match b64decode kb64 with
      | none => (Except.error EncError.badKeyData, σ2)
      | some keyBytes =>
          let ct := aesgcmEncrypt keyBytes nonce token (tenantAAD tenant)
          (Except.ok (b64encode (nonce ++ ct), a.1), σ2)

/-- `TokenEncryption.decrypt_token`: resolve the key, base64-decode key
and blob, split nonce (first 12 bytes) from ciphertext+tag, and attempt
authenticated decryption with the AAD recomputed from the supplied
tenant id. -/
def decrypt_token (σ : KMState) (now : Nat) (blob kid tenant : Bytes) :
    Except EncError Bytes × KMState :=
  match get_key σ now kid with
  | (none, σ1) => (Except.error (EncError.keyUnavailable kid), σ1)
  | (some kb64, σ1) =>
      match b64decode kb64 with
      | none => (Except.error EncError.badKeyData, σ1)
      | some keyBytes =>
          match b64decode blob with
          | none => (Except.error EncError.badCiphertext, σ1)
          | some data =>
              match aesgcmDecrypt keyBytes (data.take 12) (data.drop 12)
                  (tenantAAD tenant) with
              | none => (Except.error EncError.authenticationFailed, σ1)
              | some pt => (Except.ok pt, σ1)

/-- ASCII bytes of the required Slack bot token lead text. -/
def xoxbLead : Bytes := [120, 111, 120, 98, 45]

/-- `TokenEncryption.validate_token_format` (a pure check; the
non-string branch of the Python guard is handled by typing). -/
def validate_token_format (token : Bytes) : Bool :=
  if token.isEmpty then false
  else if !(xoxbLead.isPrefixOf token) then false
  else if token.length < 50 then false
  else true

/-- Operation column of an audit row. -/
inductive AuditOp
  | token_stored
  | token_retrieved
deriving DecidableEq, Repr

/-- The error text recorded in an audit row: either the literal
"Invalid token format" written by the validation branch of
`encrypt_slack_token`, or `str(e)` of a caught `EncryptionError`. -/
inductive AuditMsg
  | invalidTokenFormat
  | fromError (e : EncError)
deriving DecidableEq, Repr

/-- An audit row as attempted by `AuditLogger.log_operation` (the
fields the claims speak about; ip/user-agent/request-id metadata are
opaque pass-throughs and are omitted). -/
structure AuditRecord where
  tenant_id : Bytes
  operation : AuditOp
  success : Bool
  error_message : Option AuditMsg
deriving DecidableEq, Repr

/-- State of the `AuditLogger`: whether a Supabase client is configured
and whether the audit POST currently succeeds. -/
structure AuditState where
  hasClient : Bool
  writeOk : Bool
deriving DecidableEq, Repr

/-- `AuditLogger.log_operation`: returns `true` on the local-log
fallback (no client) and on a 201 response, `false` on any failure; it
catches every exception, so it never raises. -/
def log_operation (α : AuditState) (_rec : AuditRecord) : Bool :=
  if !α.hasClient then true
  else α.writeOk

/-- `encrypt_slack_token`: the audited facade over
`TokenEncryption.encrypt_token`. The third component lists, in order,
every audit record attempted together with the boolean
`log_operation` returned for it. Note that on a validation failure the
`raise` inside the `try` block is caught by the generic handler, which
logs a second record before re-raising. -/
def encrypt_slack_token (σ : KMState) (α : AuditState) (now : Nat)
    (freshId freshKey nonce token tenant : Bytes) :
    Except EncError (Bytes × Bytes) × KMState × List (AuditRecord × Bool) :=
  if !(validate_token_format token) then
    let r1 : AuditRecord :=
      ⟨tenant, AuditOp.token_stored, false, some AuditMsg.invalidTokenFormat⟩
    let r2 : AuditRecord :=
      ⟨tenant, AuditOp.token_stored, false,
       some (AuditMsg.fromError EncError.invalidFormat)⟩
    (Except.error EncError.invalidFormat, σ,
     [(r1, log_operation α r1), (r2, log_operation α r2)])
  else
    match encrypt_token σ now freshId freshKey nonce token tenant with
    | (Except.ok (blob, kid), σ1) =>
        let r : AuditRecord := ⟨tenant, AuditOp.token_stored, true, none⟩
        (Except.ok (blob, kid), σ1, [(r, log_operation α r)])
    | (Except.error e, σ1) =>
        let r : AuditRecord :=
          ⟨tenant, AuditOp.token_stored, false, some (AuditMsg.fromError e)⟩
        (Except.error e, σ1, [(r, log_operation α r)])

/-- `decrypt_slack_token`: the audited facade over
`TokenEncryption.decrypt_token`; same conventions as
`encrypt_slack_token`. -/
def decrypt_slack_token (σ : KMState) (α : AuditState) (now : Nat)
    (blob kid tenant : Bytes) :
    Except EncError Bytes × KMState × List (AuditRecord × Bool) :=
  match decrypt_token σ now blob kid tenant with
  | (Except.ok token, σ1) =>
      let r : AuditRecord := ⟨tenant, AuditOp.token_retrieved, true, none⟩
      (Except.ok token, σ1, [(r, log_operation α r)])
  | (Except.error e, σ1) =>
      let r : AuditRecord :=
        ⟨tenant, AuditOp.token_retrieved, false, some (AuditMsg.fromError e)⟩
      (Except.error e, σ1, [(r, log_operation α r)])

/-- Modelled `Fernet.generate_key` (external library): the fresh random
key material, passed in explicitly. -/
def fernetGenerateKey (rnd : Bytes) : Bytes := rnd

/-- Modelled `Fernet(key).encrypt` (external library, idealized): a
function of the key, the per-call randomness and the plaintext only —
faithful to the Fernet token layout in that no other input exists. -/
def fernetEncrypt (key iv pt : Bytes) : Bytes := [128] ++ iv ++ pt ++ key

/-- `encrypt_token` of `enablebot/web/main.py`: generates a fresh Fernet
key, encrypts the token with it, and returns the base64 of the Fernet
token and of the key. The `tenant_id` parameter is accepted but unused. -/
def web_encrypt_token (token tenant_id keyRnd iv : Bytes) : Bytes × Bytes :=
  let key := fernetGenerateKey keyRnd
  let et := fernetEncrypt key iv token
  (b64encode et, b64encode key)

/-- Byte-string well-formedness: every entry is an actual byte. -/
abbrev validBytes (l : Bytes) : Prop := ∀ x ∈ l, x < 256

/-- The cache entry `generate_key` writes for a freshly generated key. -/
def genEntry (now : Nat) (keyBytes : Bytes) : CachedKey :=
  ⟨b64encode keyBytes, now, now + keyLifetime⟩

/-- Concrete 32-byte key used by the witness scenarios. -/
def wKey : Bytes := List.replicate 32 7

/-- Base64 text of `wKey`, as stored and cached. -/
def wKeyB64 : Bytes := b64encode wKey

/-- Concrete key id used by the witness scenarios. -/
def wKid : Bytes := [107, 49]

/-- Concrete tenant id (UTF-8 bytes). -/
def wTenantA : Bytes := [116, 101, 97, 109, 45, 65]

/-- A second, distinct tenant id. -/
def wTenantB : Bytes := [116, 101, 97, 109, 45, 66]

/-- A well-formed Slack bot token (50 bytes, `xoxb-` lead). -/
def wToken : Bytes := xoxbLead ++ List.replicate 45 97

/-- Concrete 12-byte nonce. -/
def wNonce : Bytes := [0, 1, 2, 3, 4, 5, 6, 7, 8, 9, 10, 11]

/-- Witness KeyManager state: `wKid` cached and unexpired, no store. -/
def wState : KMState := ⟨[(wKid, ⟨wKeyB64, 0, 100⟩)], [], false, false, false, false⟩

/-- Result of encrypting `wToken` for `wTenantA` in `wState` at time 5. -/
def wEnc : Except EncError (Bytes × Bytes) × KMState :=
  encrypt_token wState 5 [] [] wNonce wToken wTenantA

/-- The blob produced by `wEnc`. -/
def wBlob : Bytes :=
  match wEnc.1 with
  | Except.ok p => p.1
  | Except.error _ => []

/-- The KeyManager state after `wEnc`. -/
def wS1 : KMState := wEnc.2

/-- Audit state whose sink write fails. -/
def wAuditFail : AuditState := ⟨true, false⟩

/-- A token failing `validate_token_format`. -/
def wBadToken : Bytes := [98, 97, 100]

/-- State where `wKid` is revoked in the store but still live in cache. -/
def wRevokedState : KMState :=
  ⟨[(wKid, ⟨wKeyB64, 0, 100⟩)], [(wKid, ⟨wKeyB64, KeyStatus.revoked, 0, 100⟩)],
   true, true, true, true⟩

/-- State where `wKid` is revoked in the store and its cache entry has
expired (expiry 3, observed at time 5). -/
def wRevokedColdState : KMState :=
  ⟨[(wKid, ⟨wKeyB64, 0, 3⟩)], [(wKid, ⟨wKeyB64, KeyStatus.revoked, 0, 100⟩)],
   true, true, true, true⟩

/-- State for the rotation scenario: `wKid` active everywhere with
expiry 10. -/
def wRotState : KMState :=
  ⟨[(wKid, ⟨wKeyB64, 0, 10⟩)], [(wKid, ⟨wKeyB64, KeyStatus.active, 0, 10⟩)],
   true, true, true, true⟩

/-- Encryption under `wRotState` at time 5 (before rotation). -/
def wRotEnc : Except EncError (Bytes × Bytes) × KMState :=
  encrypt_token wRotState 5 [] [] wNonce wToken wTenantA

/-- The blob produced by `wRotEnc`. -/
def wRotBlob : Bytes :=
  match wRotEnc.1 with
  | Except.ok p => p.1
  | Except.error _ => []

/-- State with no Supabase client at all (every store write fails). -/
def wFailState : KMState := ⟨[], [], false, false, false, false⟩

theorem charSextet_sextetChar : ∀ s < 64, charSextet (sextetChar s) = some s := by
  decide

theorem sextetChar_ne_pad : ∀ s < 64, sextetChar s ≠ 61 := by
  decide

theorem charSextet_lt {c s : Nat} (h : charSextet c = some s) : s < 64 := by
  unfold charSextet at h
  repeat' split at h
  all_goals simp_all
  all_goals omega

theorem b64_roundtrip : ∀ l : Bytes, (∀ x ∈ l, x < 256) →
    b64decode (b64encode l) = some l := by
  intro l
  induction l using b64encode.induct with
  | case1 => intro _; rfl
  | case2 a =>
      intro h
      have ha : a < 256 := h a (by simp)
      have h1 := charSextet_sextetChar (a / 4) (by omega)
      have h2 := charSextet_sextetChar (a % 4 * 16) (by omega)
      simp only [b64encode, b64decode, if_pos, and_self, decodePad2, h1, h2]
      simp only [Option.some.injEq, List.cons.injEq, and_true]
      omega
  | case3 a b =>
      intro h
      have ha : a < 256 := h a (by simp)
      have hb : b < 256 := h b (by simp)
      have h1 := charSextet_sextetChar (a / 4) (by omega)
      have h2 := charSextet_sextetChar (a % 4 * 16 + b / 16) (by omega)
      have h3 := charSextet_sextetChar (b % 16 * 4) (by omega)
      have hne : sextetChar (b % 16 * 4) ≠ 61 := sextetChar_ne_pad _ (by omega)
      simp only [b64encode, b64decode]
      rw [if_neg (by simp [hne]), if_pos (by simp)]
      simp only [decodePad3, h1, h2, h3]
      simp only [Option.some.injEq, List.cons.injEq, and_true]
      omega
  | case4 a b c rest ih =>
      intro h
      have ha : a < 256 := h a (by simp)
      have hb : b < 256 := h b (by simp)
      have hc : c < 256 := h c (by simp)
      have hrest : ∀ x ∈ rest, x < 256 := by
        intro x hx; exact h x (by simp [hx])
      have h1 := charSextet_sextetChar (a / 4) (by omega)
      have h2 := charSextet_sextetChar (a % 4 * 16 + b / 16) (by omega)
      have h3 := charSextet_sextetChar (b % 16 * 4 + c / 64) (by omega)
      have h4 := charSextet_sextetChar (c % 64) (by omega)
      have hne3 : sextetChar (b % 16 * 4 + c / 64) ≠ 61 :=
        sextetChar_ne_pad _ (by omega)
      have hne4 : sextetChar (c % 64) ≠ 61 := sextetChar_ne_pad _ (by omega)
      simp only [b64encode, b64decode]
      rw [if_neg (by simp [hne3]), if_neg (by simp [hne4])]
      simp only [decodeQuad, h1, h2, h3, h4, ih hrest]
      simp only [Option.some.injEq, List.cons_append, List.nil_append,
        List.cons.injEq, and_true]
      omega

theorem decodePad2_bytes_lt {c1 c2 : Nat} {l : Bytes}
    (h : decodePad2 c1 c2 = some l) : ∀ x ∈ l, x < 256 := by
  unfold decodePad2 at h
  cases hc1 : charSextet c1 with
  | none => rw [hc1] at h; simp at h
  | some s1 =>
    cases hc2 : charSextet c2 with
    | none => rw [hc1, hc2] at h; simp at h
    | some s2 =>
      rw [hc1, hc2] at h
      simp only [Option.some.injEq] at h
      subst h
      have := charSextet_lt hc1
      have := charSextet_lt hc2
      intro x hx
      simp at hx
      omega

theorem decodePad3_bytes_lt {c1 c2 c3 : Nat} {l : Bytes}
    (h : decodePad3 c1 c2 c3 = some l) : ∀ x ∈ l, x < 256 := by
  unfold decodePad3 at h
  cases hc1 : charSextet c1 with
  | none => rw [hc1] at h; simp at h
  | some s1 =>
    cases hc2 : charSextet c2 with
    | none => rw [hc1, hc2] at h; simp at h
    | some s2 =>
      cases hc3 : charSextet c3 with
      | none => rw [hc1, hc2, hc3] at h; simp at h
      | some s3 =>
        rw [hc1, hc2, hc3] at h
        simp only [Option.some.injEq] at h
        subst h
        have := charSextet_lt hc1
        have := charSextet_lt hc2
        have := charSextet_lt hc3
        intro x hx
        simp at hx
        rcases hx with hx | hx <;> omega

theorem decodeQuad_bytes_lt {c1 c2 c3 c4 : Nat} {l : Bytes}
    (h : decodeQuad c1 c2 c3 c4 = some l) : ∀ x ∈ l, x < 256 := by
  unfold decodeQuad at h
  cases hc1 : charSextet c1 with
  | none => rw [hc1] at h; simp at h
  | some s1 =>
    cases hc2 : charSextet c2 with
    | none => rw [hc1, hc2] at h; simp at h
    | some s2 =>
      cases hc3 : charSextet c3 with
      | none => rw [hc1, hc2, hc3] at h; simp at h
      | some s3 =>
        cases hc4 : charSextet c4 with
        | none => rw [hc1, hc2, hc3, hc4] at h; simp at h
        | some s4 =>
          rw [hc1, hc2, hc3, hc4] at h
          simp only [Option.some.injEq] at h
          subst h
          have := charSextet_lt hc1
          have := charSextet_lt hc2
          have := charSextet_lt hc3
          have := charSextet_lt hc4
          intro x hx
          simp at hx
          rcases hx with hx | hx | hx <;> omega

theorem b64decode_bytes_lt : ∀ s l, b64decode s = some l → ∀ x ∈ l, x < 256 := by
  intro s
  induction s using b64decode.induct with
  | case1 =>
      intro l h x hx
      simp only [b64decode, Option.some.injEq] at h
      subst h
      simp at hx
  | case2 c1 c2 c3 c4 rest hcond =>
      intro l h x hx
      simp only [b64decode, if_pos hcond] at h
      exact decodePad2_bytes_lt h x hx
  | case3 c1 c2 c3 c4 rest hcond1 hcond2 =>
      intro l h x hx
      simp only [b64decode, if_neg hcond1, if_pos hcond2] at h
      exact decodePad3_bytes_lt h x hx
  | case4 c1 c2 c3 c4 rest hcond1 hcond2 bs tl hrest hquad ih =>
      intro l h x hx
      simp only [b64decode, if_neg hcond1, if_neg hcond2, hquad, hrest,
        Option.some.injEq] at h
      subst h
      rcases List.mem_append.mp hx with hx | hx
      · exact decodeQuad_bytes_lt hquad x hx
      · exact ih tl hrest x hx
  | case5 c1 c2 c3 c4 rest hcond1 hcond2 hfail ih =>
      intro l h x hx
      simp only [b64decode, if_neg hcond1, if_neg hcond2] at h
      cases hq : decodeQuad c1 c2 c3 c4 with
      | none => simp at h
      | some bs =>
        cases hr : b64decode rest with
        | none => simp at h
        | some tl => exact (hfail bs tl hq hr).elim
  | case6 t hne1 hne4 =>
      intro l h x hx
      cases t with
      | nil => exact absurd rfl hne1
      | cons a t1 =>
        cases t1 with
        | nil => simp [b64decode] at h
        | cons b t2 =>
          cases t2 with
          | nil => simp [b64decode] at h
          | cons c t3 =>
            cases t3 with
            | nil => simp [b64decode] at h
            | cons d t4 => exact (hne4 a b c d t4 rfl).elim

theorem aesgcm_roundtrip (key nonce pt aad : Bytes) :
    aesgcmDecrypt key nonce (aesgcmEncrypt key nonce pt aad) aad = some pt := by
  unfold aesgcmDecrypt aesgcmEncrypt
  have h1 : (pt ++ gcmTag key nonce aad).length - (gcmTag key nonce aad).length
      = pt.length := by simp
  rw [if_pos]
  · rw [h1, List.take_left]
  · constructor
    · simp
    · rw [h1, List.drop_left]

theorem aesgcm_auth (key nonce pt aad1 aad2 : Bytes) (hne : aad1 ≠ aad2) :
    aesgcmDecrypt key nonce (aesgcmEncrypt key nonce pt aad1) aad2 = none := by
  unfold aesgcmDecrypt aesgcmEncrypt
  rw [if_neg]
  rintro ⟨hlen, hdrop⟩
  -- the last byte of the blob is the AAD length recorded at encryption
  have hlast1 : (pt ++ gcmTag key nonce aad1).getLast? = some aad1.length := by
    rw [List.getLast?_append]
    simp [gcmTag, List.getLast?_append]
  -- the successful suffix check makes it the AAD length used at decryption
  have hsuffix : gcmTag key nonce aad2 <:+ (pt ++ gcmTag key nonce aad1) := by
    rw [← hdrop]
    exact List.drop_suffix _ _
  obtain ⟨t, ht⟩ := hsuffix
  have hlast2 : (pt ++ gcmTag key nonce aad1).getLast? = some aad2.length := by
    rw [← ht, List.getLast?_append]
    simp [gcmTag, List.getLast?_append]
  have hlen12 : aad1.length = aad2.length :=
    Option.some.inj (hlast1.symm.trans hlast2)
  -- equal AAD lengths force the two tags to coincide
  have htaglen : (gcmTag key nonce aad2).length = (gcmTag key nonce aad1).length := by
    simp [gcmTag, hlen12]
  have hdrop1 : (pt ++ gcmTag key nonce aad1).drop
      ((pt ++ gcmTag key nonce aad1).length - (gcmTag key nonce aad1).length)
      = gcmTag key nonce aad1 := by
    have h0 : (pt ++ gcmTag key nonce aad1).length - (gcmTag key nonce aad1).length
        = pt.length := by simp
    rw [h0, List.drop_left]
  have htageq : gcmTag key nonce aad1 = gcmTag key nonce aad2 := by
    rw [← hdrop1, ← hdrop, htaglen]
  unfold gcmTag at htageq
  have h1 := List.append_inj htageq (by simp [hlen12])
  exact hne (List.append_cancel_left h1.1)

theorem find?_map_replace (c : List (Bytes × CachedKey)) (kid : Bytes) (e : CachedKey)
    (h : c.any (fun p => p.1 == kid) = true) :
    ((c.map (fun p => if p.1 == kid then (kid, e) else p)).find?
      (fun p => p.1 == kid)) = some (kid, e) := by
  induction c with
  | nil => simp at h
  | cons p tl ih =>
      by_cases hp : (p.1 == kid) = true
      · simp only [List.map_cons, if_pos hp]
        rw [List.find?_cons_of_pos]
        simp
      · simp only [List.any_cons, hp, Bool.false_or] at h
        simp only [List.map_cons, if_neg hp]
        rw [List.find?_cons_of_neg]
        · exact ih h
        · simpa using hp

theorem find?_append_last (c : List (Bytes × CachedKey)) (kid : Bytes) (e : CachedKey)
    (h : c.any (fun p => p.1 == kid) = false) :
    ((c ++ [(kid, e)]).find? (fun p => p.1 == kid)) = some (kid, e) := by
  induction c with
  | nil =>
      simp only [List.nil_append]
      rw [List.find?_cons_of_pos]
      simp
  | cons p tl ih =>
      simp only [List.any_cons, Bool.or_eq_false_iff] at h
      rw [List.cons_append, List.find?_cons_of_neg]
      · exact ih h.2
      · simp [h.1]

theorem cacheLookup_insert (c : List (Bytes × CachedKey)) (kid : Bytes) (e : CachedKey) :
    cacheLookup (cacheInsert c kid e) kid = some e := by
  unfold cacheInsert cacheLookup
  by_cases h : c.any (fun p => p.1 == kid) = true
  · rw [if_pos h, find?_map_replace c kid e h]
    rfl
  · rw [if_neg h, find?_append_last c kid e (Bool.eq_false_iff.mpr h)]
    rfl

theorem storeGetActive_none (store : List (Bytes × StoreRecord))
    (hasClient getOk : Bool) (kid : Bytes)
    (h : ∀ p ∈ store, p.1 = kid → ¬ p.2.status = KeyStatus.active) :
    storeGetActive store hasClient getOk kid = none := by
  unfold storeGetActive
  by_cases hc : (hasClient && getOk) = true
  · rw [if_pos hc]
    have hnil : store.filter
        (fun p => p.1 == kid && p.2.status == KeyStatus.active) = [] := by
      rw [List.filter_eq_nil_iff]
      intro p hp
      simp only [Bool.and_eq_true, beq_iff_eq, not_and]
      intro h1 h2
      exact h p hp h1 h2
    rw [hnil]
    rfl
  · rw [if_neg hc]

theorem cacheLookup_mem (c : List (Bytes × CachedKey)) (kid : Bytes) (e : CachedKey)
    (h : cacheLookup c kid = some e) : (kid, e) ∈ c := by
  unfold cacheLookup at h
  cases hf : c.find? (fun p => p.1 == kid) with
  | none => rw [hf] at h; simp at h
  | some p =>
      rw [hf] at h
      simp at h
      have hm := List.mem_of_find?_eq_some hf
      have hp := List.find?_some hf
      simp only [beq_iff_eq] at hp
      have hpe : p = (kid, e) := by
        obtain ⟨p1, p2⟩ := p
        simp only [Prod.mk.injEq]
        exact ⟨hp, h⟩
      rw [← hpe]
      exact hm

theorem get_key_eq_of_cache_some (σ : KMState) (now : Nat) (kid : Bytes) (e : CachedKey)
    (h : cacheLookup σ.key_cache kid = some e) :
    get_key σ now kid = if now < e.expires_at then (some e.key, σ)
      else getFromStore { σ with key_cache := cacheDelete σ.key_cache kid } kid := by
  unfold get_key
  rw [h]

theorem get_key_eq_of_cache_none (σ : KMState) (now : Nat) (kid : Bytes)
    (h : cacheLookup σ.key_cache kid = none) :
    get_key σ now kid = getFromStore σ kid := by
  unfold get_key
  rw [h]

theorem getFromStore_eq_some (σ : KMState) (kid : Bytes) (rec : StoreRecord)
    (h : storeGetActive σ.store σ.hasClient σ.getOk kid = some rec) :
    getFromStore σ kid = (some rec.key_data,
      { σ with key_cache := cacheInsert σ.key_cache kid (cacheEntryOf rec) }) := by
  unfold getFromStore
  rw [h]

theorem getFromStore_eq_none (σ : KMState) (kid : Bytes)
    (h : storeGetActive σ.store σ.hasClient σ.getOk kid = none) :
    getFromStore σ kid = (none, σ) := by
  unfold getFromStore
  rw [h]

theorem getFromStore_fst (σ : KMState) (kid : Bytes) :
    (getFromStore σ kid).1
      = (storeGetActive σ.store σ.hasClient σ.getOk kid).map
          (fun rec => rec.key_data) := by
  unfold getFromStore
  cases storeGetActive σ.store σ.hasClient σ.getOk kid <;> rfl

theorem get_key_fst_none (σ : KMState) (now : Nat) (kid : Bytes)
    (hcache : ∀ p ∈ σ.key_cache, p.1 = kid → p.2.expires_at ≤ now)
    (hstore : ∀ p ∈ σ.store, p.1 = kid → ¬ p.2.status = KeyStatus.active) :
    (get_key σ now kid).1 = none := by
  cases hl : cacheLookup σ.key_cache kid with
  | none =>
      rw [get_key_eq_of_cache_none σ now kid hl, getFromStore_fst]
      rw [storeGetActive_none σ.store σ.hasClient σ.getOk kid hstore]
      rfl
  | some e =>
      have he : e.expires_at ≤ now := hcache (kid, e) (cacheLookup_mem _ _ _ hl) rfl
      rw [get_key_eq_of_cache_some σ now kid e hl, if_neg (by omega),
        getFromStore_fst]
      dsimp only
      rw [storeGetActive_none σ.store σ.hasClient σ.getOk kid hstore]
      rfl

theorem getFromStore_again (σ σ2 : KMState) (now : Nat) (kid k : Bytes)
    (h : getFromStore σ kid = (some k, σ2)) :
    (get_key σ2 now kid).1 = some k := by
  cases hs : storeGetActive σ.store σ.hasClient σ.getOk kid with
  | none =>
      rw [getFromStore_eq_none σ kid hs] at h
      exact absurd h (by simp)
  | some rec =>
      rw [getFromStore_eq_some σ kid rec hs] at h
      simp only [Prod.mk.injEq, Option.some.injEq] at h
      obtain ⟨hk, hσ⟩ := h
      subst hσ
      have hcl : cacheLookup
          ({ σ with key_cache := cacheInsert σ.key_cache kid (cacheEntryOf rec) }).key_cache
          kid = some (cacheEntryOf rec) :=
        cacheLookup_insert _ _ _
      rw [get_key_eq_of_cache_some _ now kid _ hcl]
      by_cases ht : now < (cacheEntryOf rec).expires_at
      · rw [if_pos ht]
        simpa [cacheEntryOf] using hk
      · rw [if_neg ht, getFromStore_fst]
        dsimp only
        rw [hs]
        simpa using hk

theorem get_key_again (σ σ2 : KMState) (now : Nat) (kid k : Bytes)
    (h : get_key σ now kid = (some k, σ2)) :
    (get_key σ2 now kid).1 = some k := by
  cases hl : cacheLookup σ.key_cache kid with
  | none =>
      rw [get_key_eq_of_cache_none σ now kid hl] at h
      exact getFromStore_again σ σ2 now kid k h
  | some e =>
      rw [get_key_eq_of_cache_some σ now kid e hl] at h
      by_cases ht : now < e.expires_at
      · rw [if_pos ht] at h
        simp only [Prod.mk.injEq, Option.some.injEq] at h
        obtain ⟨hk, hσ⟩ := h
        subst hσ
        rw [get_key_eq_of_cache_some σ now kid e hl, if_pos ht]
        simpa using hk
      · rw [if_neg ht] at h
        exact getFromStore_again _ σ2 now kid k h

/-- Claim C10: `validate_token_format(token)` returns true exactly when
the token is non-empty, starts with the bytes of `xoxb-`, and is at
least 50 characters long; every other (string) input returns false. The
check is a pure function of its argument (its Lean type has no state),
matching the no-side-effects part of the claim; `None`/non-string
inputs are excluded by typing in this embedding. -/
theorem C10_validate_token_format_iff (token : Bytes) :
    validate_token_format token = true ↔
      (token ≠ [] ∧ xoxbLead.isPrefixOf token = true ∧ 50 ≤ token.length) := by
  cases token with
  | nil => simp [validate_token_format]
  | cons a t =>
      unfold validate_token_format
      by_cases h2 : xoxbLead.isPrefixOf (a :: t)
      · by_cases h3 : (a :: t).length < 50
        · simp [h2, h3]
        · simp [h2, h3]
      · simp [h2]

/-- Claim C9: the simple `encrypt_token` of `web/main.py` has no tenant
binding: with the same token and the same randomness (Fernet key
material and IV), the result is identical for any two tenant ids — the
`tenant_id` argument never enters the encryption. -/
theorem C9_web_encrypt_token_ignores_tenant (token t1 t2 keyRnd iv : Bytes) :
    web_encrypt_token token t1 keyRnd iv = web_encrypt_token token t2 keyRnd iv :=
  rfl

/-- Claim C3, amended: when the KeyStore write fails (no client, or the
POST fails), `generate_key` does NOT fail: it still returns the key id
and still inserts the key into the in-memory cache, leaving the store
unchanged — the source ignores the boolean `_store_key` returns, so a
key can exist only in memory. -/
theorem C3_generate_key_ignores_store_failure (σ : KMState) (now : Nat)
    (kid keyBytes : Bytes)
    (hfail : σ.hasClient = false ∨ σ.postOk = false) :
    generate_key σ now kid keyBytes
      = (kid, { σ with key_cache := cacheInsert σ.key_cache kid (genEntry now keyBytes) }) ∧
    cacheLookup (generate_key σ now kid keyBytes).2.key_cache kid
      = some (genEntry now keyBytes) ∧
    (generate_key σ now kid keyBytes).2.store = σ.store := by
  have hsk : store_key σ now kid (b64encode keyBytes) = (false, σ) := by
    unfold store_key
    rcases hfail with h | h
    · rw [h]
      simp
    · rw [h]
      by_cases hc : σ.hasClient <;> simp [hc]
  have hmain : generate_key σ now kid keyBytes
      = (kid, { σ with key_cache := cacheInsert σ.key_cache kid (genEntry now keyBytes) }) := by
    simp only [generate_key, genEntry]
    rw [hsk]
  refine ⟨hmain, ?_, ?_⟩
  · rw [hmain]
    exact cacheLookup_insert _ _ _
  · rw [hmain]

/-- Counterexample to claim C3 as stated: with no Supabase client the
KeyStore write fails, yet `generate_key` returns the key id, inserts
the key into the cache, and leaves the store unchanged — it does not
fail, and the key exists only in memory. -/
theorem C3_counterexample :
    (wFailState.hasClient = false ∨ wFailState.postOk = false) ∧
    (generate_key wFailState 0 wKid wKey).1 = wKid ∧
    cacheLookup (generate_key wFailState 0 wKid wKey).2.key_cache wKid ≠ none ∧
    (generate_key wFailState 0 wKid wKey).2.store = wFailState.store := by
  refine ⟨Or.inl rfl, ?_, ?_, ?_⟩ <;> decide

theorem C3_generate_key_ignores_store_failure_witness :
    (wFailState.hasClient = false ∨ wFailState.postOk = false) ∧
    (generate_key wFailState 0 wKid wKey
      = (wKid, { wFailState with key_cache := cacheInsert wFailState.key_cache wKid (genEntry 0 wKey) }) ∧
     cacheLookup (generate_key wFailState 0 wKid wKey).2.key_cache wKid
       = some (genEntry 0 wKey) ∧
     (generate_key wFailState 0 wKid wKey).2.store = wFailState.store) :=
  ⟨Or.inl rfl, C3_generate_key_ignores_store_failure wFailState 0 wKid wKey (Or.inl rfl)⟩

/-- Claim C4, amended: for a secret failing `validate_token_format`,
`encrypt_slack_token` never reaches the cipher and leaves the
KeyManager state (including the key cache) unchanged, but it attempts
exactly TWO audit records, not one: the validation branch logs
`(token_stored, success=false, "Invalid token format")` and then raises,
and the generic exception handler logs a second failure record before
re-raising. -/
theorem C4_format_gate_logs_two_records (σ : KMState) (α : AuditState) (now : Nat)
    (freshId freshKey nonce token tenant : Bytes)
    (hval : validate_token_format token = false) :
    encrypt_slack_token σ α now freshId freshKey nonce token tenant
      = (Except.error EncError.invalidFormat, σ,
         [(⟨tenant, AuditOp.token_stored, false, some AuditMsg.invalidTokenFormat⟩,
           log_operation α ⟨tenant, AuditOp.token_stored, false, some AuditMsg.invalidTokenFormat⟩),
          (⟨tenant, AuditOp.token_stored, false, some (AuditMsg.fromError EncError.invalidFormat)⟩,
           log_operation α ⟨tenant, AuditOp.token_stored, false, some (AuditMsg.fromError EncError.invalidFormat)⟩)]) := by
  unfold encrypt_slack_token
  rw [hval]
  rfl

/-- Counterexample to claim C4 as stated: on a malformed token the
facade attempts two audit records, not exactly one. -/
theorem C4_counterexample :
    validate_token_format wBadToken = false ∧
    (encrypt_slack_token wState wAuditFail 0 [] [] [] wBadToken wTenantA).2.2.length = 2 := by
  refine ⟨?_, ?_⟩ <;> decide

theorem C4_format_gate_logs_two_records_witness :
    validate_token_format wBadToken = false ∧
    encrypt_slack_token wState wAuditFail 0 [] [] [] wBadToken wTenantA
      = (Except.error EncError.invalidFormat, wState,
         [(⟨wTenantA, AuditOp.token_stored, false, some AuditMsg.invalidTokenFormat⟩,
           log_operation wAuditFail ⟨wTenantA, AuditOp.token_stored, false, some AuditMsg.invalidTokenFormat⟩),
          (⟨wTenantA, AuditOp.token_stored, false, some (AuditMsg.fromError EncError.invalidFormat)⟩,
           log_operation wAuditFail ⟨wTenantA, AuditOp.token_stored, false, some (AuditMsg.fromError EncError.invalidFormat)⟩)]) :=
  ⟨by decide,
   C4_format_gate_logs_two_records wState wAuditFail 0 [] [] [] wBadToken wTenantA (by decide)⟩

/-- Claim C7: whenever the underlying `decrypt_token` succeeds,
`decrypt_slack_token` returns the plaintext to the caller for every
audit-sink state — including one whose write fails — because
`log_operation` catches its own errors and the facade ignores its
boolean result; exactly one success audit record is attempted. -/
theorem C7_audit_failure_preserves_reveal (σ : KMState) (α : AuditState) (now : Nat)
    (blob kid tenant token : Bytes)
    (h : (decrypt_token σ now blob kid tenant).1 = Except.ok token) :
    (decrypt_slack_token σ α now blob kid tenant).1 = Except.ok token ∧
    (decrypt_slack_token σ α now blob kid tenant).2.2
      = [(⟨tenant, AuditOp.token_retrieved, true, none⟩,
          log_operation α ⟨tenant, AuditOp.token_retrieved, true, none⟩)] := by
  unfold decrypt_slack_token
  rcases hd : decrypt_token σ now blob kid tenant with ⟨r, σ1⟩
  rw [hd] at h
  have hr : r = Except.ok token := h
  subst hr
  exact ⟨rfl, rfl⟩

theorem C7_audit_failure_preserves_reveal_witness :
    (decrypt_token wS1 5 wBlob wKid wTenantA).1 = Except.ok wToken ∧
    ((decrypt_slack_token wS1 wAuditFail 5 wBlob wKid wTenantA).1 = Except.ok wToken ∧
     (decrypt_slack_token wS1 wAuditFail 5 wBlob wKid wTenantA).2.2
       = [(⟨wTenantA, AuditOp.token_retrieved, true, none⟩,
           log_operation wAuditFail ⟨wTenantA, AuditOp.token_retrieved, true, none⟩)]) :=
  ⟨by decide,
   C7_audit_failure_preserves_reveal wS1 wAuditFail 5 wBlob wKid wTenantA wToken (by decide)⟩

theorem decrypt_token_keyUnavailable (σ : KMState) (now : Nat)
    (blob kid tenant : Bytes) (h : (get_key σ now kid).1 = none) :
    (decrypt_token σ now blob kid tenant).1
      = Except.error (EncError.keyUnavailable kid) := by
  rcases hg : get_key σ now kid with ⟨o, σ1⟩
  rw [hg] at h
  have ho : o = none := h
  subst ho
  unfold decrypt_token
  rw [hg]

/-- Claim C5, amended: after a key is revoked in the KeyStore, a
`decrypt_token` call referencing that key id fails with the
key-unavailable `EncryptionError` for every tenant and every blob —
PROVIDED the key has no unexpired entry left in the in-memory cache.
(`get_key` consults the cache first, so a still-cached revoked key keeps
decrypting until its cache entry expires; see the counterexample.) -/
theorem C5_revoked_key_unavailable (σ : KMState) (now : Nat) (blob kid tenant : Bytes)
    (hcache : ∀ p ∈ σ.key_cache, p.1 = kid → p.2.expires_at ≤ now)
    (hstore : ∀ p ∈ σ.store, p.1 = kid → p.2.status = KeyStatus.revoked) :
    (decrypt_token σ now blob kid tenant).1
      = Except.error (EncError.keyUnavailable kid) := by
  have hs : ∀ p ∈ σ.store, p.1 = kid → ¬ p.2.status = KeyStatus.active := by
    intro p hp h1 h2
    rw [hstore p hp h1] at h2
    exact KeyStatus.noConfusion h2
  exact decrypt_token_keyUnavailable σ now blob kid tenant
    (get_key_fst_none σ now kid hcache hs)

/-- Counterexample to claim C5 as stated: `wKid` is revoked in the
KeyStore, yet decryption succeeds and returns the plaintext, because the
key is still served from the unexpired in-memory cache entry, which
`get_key` consults before the store. -/
theorem C5_counterexample :
    (∀ p ∈ wRevokedState.store, p.1 = wKid → p.2.status = KeyStatus.revoked) ∧
    (decrypt_token wRevokedState 5 wBlob wKid wTenantA).1 = Except.ok wToken := by
  refine ⟨?_, ?_⟩ <;> decide

theorem C5_revoked_key_unavailable_witness :
    (∀ p ∈ wRevokedColdState.key_cache, p.1 = wKid → p.2.expires_at ≤ 5) ∧
    (∀ p ∈ wRevokedColdState.store, p.1 = wKid → p.2.status = KeyStatus.revoked) ∧
    (decrypt_token wRevokedColdState 5 wBlob wKid wTenantA).1
      = Except.error (EncError.keyUnavailable wKid) :=
  ⟨by decide, by decide,
   C5_revoked_key_unavailable wRevokedColdState 5 wBlob wKid wTenantA
     (by decide) (by decide)⟩

/-- Claim C6, amended: after `rotate_keys` runs at a time when key
`kid` is expired (store rows and any cache entry for it have
`expires_at <= now`), a subsequent `decrypt_token` under `kid` FAILS
with the key-unavailable error instead of succeeding: rotation evicts
the expired cache entry and `get_key` only fetches store rows whose
status is `active`, so marking a key expired does break decryption of
old ciphertexts even though the key was never revoked. -/
theorem C6_rotation_disables_expired_key (σ : KMState) (now : Nat)
    (blob kid tenant : Bytes)
    (hclient : σ.hasClient = true) (hrpc : σ.rpcOk = true)
    (hstore : ∀ p ∈ σ.store, p.1 = kid → p.2.expires_at ≤ now)
    (hcache : ∀ p ∈ σ.key_cache, p.1 = kid → p.2.expires_at ≤ now) :
    (decrypt_token (rotate_keys σ now).2 now blob kid tenant).1
      = Except.error (EncError.keyUnavailable kid) := by
  have hrot : (rotate_keys σ now).2
      = { σ with store := rotateStore σ.store now,
                 key_cache := σ.key_cache.filter (fun p => decide (now < p.2.expires_at)) } := by
    unfold rotate_keys
    rw [hclient, hrpc]
    rfl
  rw [hrot]
  apply decrypt_token_keyUnavailable
  apply get_key_fst_none
  · intro p hp h1
    have hp2 : p ∈ σ.key_cache.filter (fun p => decide (now < p.2.expires_at)) := hp
    obtain ⟨hmem, hpred⟩ := List.mem_filter.mp hp2
    have h2 := hcache p hmem h1
    simp only [decide_eq_true_eq] at hpred
    omega
  · intro p hp h1 h2
    have hp2 : p ∈ rotateStore σ.store now := hp
    unfold rotateStore at hp2
    obtain ⟨q, hq, hfq⟩ := List.mem_map.mp hp2
    by_cases hcond : (decide (q.2.expires_at ≤ now) && (q.2.status == KeyStatus.active)) = true
    · rw [if_pos hcond] at hfq
      rw [← hfq] at h2
      simp at h2
    · rw [if_neg hcond] at hfq
      rw [← hfq] at h1 h2
      have hexp := hstore q hq h1
      have hsb : (q.2.status == KeyStatus.active) = false := by
        cases hb : (q.2.status == KeyStatus.active)
        · rfl
        · exact absurd (by simp [hexp, hb]) hcond
      exact absurd h2 (by simpa using hsb)

/-- Counterexample to claim C6 as stated: a ciphertext produced under
`wKid` decrypts before rotation, but after `rotate_keys` marks `wKid`
expired (not revoked), decryption fails with the key-unavailable error
instead of still returning the original secret. -/
theorem C6_counterexample :
    wRotEnc.1 = Except.ok (wRotBlob, wKid) ∧
    (decrypt_token wRotEnc.2 5 wRotBlob wKid wTenantA).1 = Except.ok wToken ∧
    (decrypt_token (rotate_keys wRotEnc.2 20).2 20 wRotBlob wKid wTenantA).1
      = Except.error (EncError.keyUnavailable wKid) := by
  refine ⟨?_, ?_, ?_⟩ <;> decide

theorem C6_rotation_disables_expired_key_witness :
    (wRotEnc.2.hasClient = true ∧ wRotEnc.2.rpcOk = true ∧
     (∀ p ∈ wRotEnc.2.store, p.1 = wKid → p.2.expires_at ≤ 20) ∧
     (∀ p ∈ wRotEnc.2.key_cache, p.1 = wKid → p.2.expires_at ≤ 20)) ∧
    (decrypt_token (rotate_keys wRotEnc.2 20).2 20 wRotBlob wKid wTenantA).1
      = Except.error (EncError.keyUnavailable wKid) :=
  ⟨⟨by decide, by decide, by decide, by decide⟩,
   C6_rotation_disables_expired_key wRotEnc.2 20 wRotBlob wKid wTenantA
     (by decide) (by decide) (by decide) (by decide)⟩

theorem validBytes_append {l1 l2 : Bytes} (h1 : validBytes l1) (h2 : validBytes l2) :
    validBytes (l1 ++ l2) := by
  intro x hx
  rcases List.mem_append.mp hx with hx | hx
  · exact h1 x hx
  · exact h2 x hx

theorem tenantAAD_validBytes (tenant : Bytes) (h : validBytes tenant) :
    validBytes (tenantAAD tenant) := by
  have hlead : validBytes tenantLead := by decide
  exact validBytes_append hlead h

theorem tenantAAD_length (tenant : Bytes) :
    (tenantAAD tenant).length = 7 + tenant.length := by
  simp [tenantAAD, tenantLead]
  omega

theorem encBlob_decode (keyBytes nonce token tenant : Bytes)
    (hkey : validBytes keyBytes) (hn : validBytes nonce) (ht : validBytes token)
    (htn : validBytes tenant) (hlen : tenant.length < 249) :
    b64decode (b64encode (nonce ++ aesgcmEncrypt keyBytes nonce token (tenantAAD tenant)))
      = some (nonce ++ aesgcmEncrypt keyBytes nonce token (tenantAAD tenant)) := by
  apply b64_roundtrip
  have haad : validBytes (tenantAAD tenant) := tenantAAD_validBytes tenant htn
  have hsing : validBytes [(tenantAAD tenant).length] := by
    intro x hx
    simp only [List.mem_singleton] at hx
    subst hx
    rw [tenantAAD_length]
    omega
  exact validBytes_append hn (validBytes_append ht
    (validBytes_append (validBytes_append (validBytes_append hkey hn) haad) hsing))

theorem decrypt_token_fst_ok (σ : KMState) (now : Nat)
    (blob kid tenant kb64 keyBytes data pt : Bytes) (σ1 : KMState)
    (h : get_key σ now kid = (some kb64, σ1))
    (h1 : b64decode kb64 = some keyBytes)
    (h2 : b64decode blob = some data)
    (h3 : aesgcmDecrypt keyBytes (data.take 12) (data.drop 12) (tenantAAD tenant)
      = some pt) :
    (decrypt_token σ now blob kid tenant).1 = Except.ok pt := by
  unfold decrypt_token
  rw [h]
  dsimp only
  rw [h1]
  dsimp only
  rw [h2]
  dsimp only
  rw [h3]

theorem decrypt_token_fst_authFail (σ : KMState) (now : Nat)
    (blob kid tenant kb64 keyBytes data : Bytes) (σ1 : KMState)
    (h : get_key σ now kid = (some kb64, σ1))
    (h1 : b64decode kb64 = some keyBytes)
    (h2 : b64decode blob = some data)
    (h3 : aesgcmDecrypt keyBytes (data.take 12) (data.drop 12) (tenantAAD tenant)
      = none) :
    (decrypt_token σ now blob kid tenant).1
      = Except.error EncError.authenticationFailed := by
  unfold decrypt_token
  rw [h]
  dsimp only
  rw [h1]
  dsimp only
  rw [h2]
  dsimp only
  rw [h3]

theorem encrypt_token_inv (σ : KMState) (now : Nat)
    (freshId freshKey nonce token tenant blob kid : Bytes) (σ1 : KMState)
    (henc : encrypt_token σ now freshId freshKey nonce token tenant
      = (Except.ok (blob, kid), σ1)) :
    ∃ kb64 keyBytes,
      b64decode kb64 = some keyBytes ∧
      (get_key σ1 now kid).1 = some kb64 ∧
      blob = b64encode (nonce ++ aesgcmEncrypt keyBytes nonce token (tenantAAD tenant)) := by
  unfold encrypt_token at henc
  dsimp only at henc
  rcases hg : get_key (get_active_key_id σ now freshId freshKey).2 now
      (get_active_key_id σ now freshId freshKey).1 with ⟨o, σ2⟩
  rw [hg] at henc
  cases o with
  | none => simp at henc
  | some kb64 =>
      dsimp only at henc
      cases hdec : b64decode kb64 with
      | none => rw [hdec] at henc; simp at henc
      | some keyBytes =>
          rw [hdec] at henc
          dsimp only at henc
          simp only [Prod.mk.injEq, Except.ok.injEq] at henc
          obtain ⟨⟨hblob, hkid⟩, hσ⟩ := henc
          subst hkid
          subst hσ
          exact ⟨kb64, keyBytes, hdec, get_key_again _ _ now _ kb64 hg, hblob.symm⟩

/-- Claim C1: round trip. If `validate_token_format` accepts the token
and `encrypt_token` returns `(blob, kid)`, then `decrypt_token` on that
blob with the same tenant id returns the token, in any later state and
at any later time in which `get_key` resolves `kid` to the same key
material as the encrypting call did (the claim's "same key material"
assumption). The byte-validity and nonce-length hypotheses record that
the token/tenant/nonce are genuine byte strings, with the 12-byte nonce
of `secrets.token_bytes(12)`, and that the AAD fits one length byte. -/
theorem C1_round_trip (σ σd : KMState) (now nowd : Nat)
    (freshId freshKey nonce token tenant blob kid : Bytes) (σ1 : KMState)
    (hval : validate_token_format token = true)
    (hnonce : nonce.length = 12)
    (hnb : validBytes nonce) (htb : validBytes token) (htnb : validBytes tenant)
    (htl : tenant.length < 249)
    (henc : encrypt_token σ now freshId freshKey nonce token tenant
      = (Except.ok (blob, kid), σ1))
    (hkey : (get_key σd nowd kid).1 = (get_key σ1 now kid).1) :
    (decrypt_token σd nowd blob kid tenant).1 = Except.ok token := by
  obtain ⟨kb64, keyBytes, hdec, hres, hblob⟩ :=
    encrypt_token_inv σ now freshId freshKey nonce token tenant blob kid σ1 henc
  rw [hres] at hkey
  rcases hgd : get_key σd nowd kid with ⟨od, σd1⟩
  rw [hgd] at hkey
  have hod : od = some kb64 := hkey
  subst hod
  have hdata : b64decode blob
      = some (nonce ++ aesgcmEncrypt keyBytes nonce token (tenantAAD tenant)) := by
    rw [hblob]
    exact encBlob_decode keyBytes nonce token tenant
      (b64decode_bytes_lt _ _ hdec) hnb htb htnb htl
  have htake : (nonce ++ aesgcmEncrypt keyBytes nonce token (tenantAAD tenant)).take 12
      = nonce := by
    rw [show (12 : Nat) = nonce.length from hnonce.symm, List.take_left]
  have hdrop : (nonce ++ aesgcmEncrypt keyBytes nonce token (tenantAAD tenant)).drop 12
      = aesgcmEncrypt keyBytes nonce token (tenantAAD tenant) := by
    rw [show (12 : Nat) = nonce.length from hnonce.symm, List.drop_left]
  apply decrypt_token_fst_ok σd nowd blob kid tenant kb64 keyBytes _ token σd1 hgd hdec hdata
  rw [htake, hdrop]
  exact aesgcm_roundtrip keyBytes nonce token (tenantAAD tenant)

theorem C1_round_trip_witness :
    (validate_token_format wToken = true ∧ wNonce.length = 12 ∧
     validBytes wNonce ∧ validBytes wToken ∧ validBytes wTenantA ∧
     wTenantA.length < 249 ∧
     encrypt_token wState 5 [] [] wNonce wToken wTenantA
       = (Except.ok (wBlob, wKid), wS1)) ∧
    (decrypt_token wS1 5 wBlob wKid wTenantA).1 = Except.ok wToken :=
  ⟨⟨by decide, by decide, by decide, by decide, by decide, by decide, by decide⟩,
   C1_round_trip wState wS1 5 5 [] [] wNonce wToken wTenantA wBlob wKid wS1
     (by decide) (by decide) (by decide) (by decide) (by decide) (by decide)
     (by decide) rfl⟩

/-- Claim C2: tenant binding. A blob encrypted for tenant `t1` and
decrypted with a different tenant id `t2` (with the key id resolving to
the same key material, so that the failure is the authenticated-
decryption check itself) fails with the authentication-failed
`EncryptionError` and never returns a plaintext: the AAD
`"tenant:" + tenant_id` recomputed at decryption no longer matches the
tag. -/
theorem C2_tenant_binding (σ σd : KMState) (now nowd : Nat)
    (freshId freshKey nonce token t1 t2 blob kid : Bytes) (σ1 : KMState)
    (hne : t1 ≠ t2)
    (hnonce : nonce.length = 12)
    (hnb : validBytes nonce) (htb : validBytes token) (htnb : validBytes t1)
    (htl : t1.length < 249)
    (henc : encrypt_token σ now freshId freshKey nonce token t1
      = (Except.ok (blob, kid), σ1))
    (hkey : (get_key σd nowd kid).1 = (get_key σ1 now kid).1) :
    (decrypt_token σd nowd blob kid t2).1
      = Except.error EncError.authenticationFailed := by
  obtain ⟨kb64, keyBytes, hdec, hres, hblob⟩ :=
    encrypt_token_inv σ now freshId freshKey nonce token t1 blob kid σ1 henc
  rw [hres] at hkey
  rcases hgd : get_key σd nowd kid with ⟨od, σd1⟩
  rw [hgd] at hkey
  have hod : od = some kb64 := hkey
  subst hod
  have hdata : b64decode blob
      = some (nonce ++ aesgcmEncrypt keyBytes nonce token (tenantAAD t1)) := by
    rw [hblob]
    exact encBlob_decode keyBytes nonce token t1
      (b64decode_bytes_lt _ _ hdec) hnb htb htnb htl
  have htake : (nonce ++ aesgcmEncrypt keyBytes nonce token (tenantAAD t1)).take 12
      = nonce := by
    rw [show (12 : Nat) = nonce.length from hnonce.symm, List.take_left]
  have hdrop : (nonce ++ aesgcmEncrypt keyBytes nonce token (tenantAAD t1)).drop 12
      = aesgcmEncrypt keyBytes nonce token (tenantAAD t1) := by
    rw [show (12 : Nat) = nonce.length from hnonce.symm, List.drop_left]
  have haadne : tenantAAD t1 ≠ tenantAAD t2 := by
    intro h
    exact hne (List.append_cancel_left h)
  apply decrypt_token_fst_authFail σd nowd blob kid t2 kb64 keyBytes _ σd1 hgd hdec hdata
  rw [htake, hdrop]
  exact aesgcm_auth keyBytes nonce token (tenantAAD t1) (tenantAAD t2) haadne

theorem C2_tenant_binding_witness :
    (wTenantA ≠ wTenantB ∧ wNonce.length = 12 ∧
     validBytes wNonce ∧ validBytes wToken ∧ validBytes wTenantA ∧
     wTenantA.length < 249 ∧
     encrypt_token wState 5 [] [] wNonce wToken wTenantA
       = (Except.ok (wBlob, wKid), wS1)) ∧
    (decrypt_token wS1 5 wBlob wKid wTenantB).1
      = Except.error EncError.authenticationFailed :=
  ⟨⟨by decide, by decide, by decide, by decide, by decide, by decide, by decide⟩,
   C2_tenant_binding wState wS1 5 5 [] [] wNonce wToken wTenantA wTenantB wBlob wKid wS1
     (by decide) (by decide) (by decide) (by decide) (by decide) (by decide)
     (by decide) rfl⟩

/-- Claim C8: blob format. Every successful `encrypt_token` output is
`base64(nonce || ciphertext_and_tag)` with the 12-byte nonce first;
decoding the blob returns exactly `nonce ++ ct`, whose first 12 bytes
are the nonce and whose remainder is the ciphertext+tag — the layout
`decrypt_token` parses with `take 12` / `drop 12`, so the ordering
round-trips exactly. -/
theorem C8_blob_format (σ : KMState) (now : Nat)
    (freshId freshKey nonce token tenant blob kid : Bytes) (σ1 : KMState)
    (hnonce : nonce.length = 12)
    (hnb : validBytes nonce) (htb : validBytes token) (htnb : validBytes tenant)
    (htl : tenant.length < 249)
    (henc : encrypt_token σ now freshId freshKey nonce token tenant
      = (Except.ok (blob, kid), σ1)) :
    ∃ ct, blob = b64encode (nonce ++ ct) ∧
      b64decode blob = some (nonce ++ ct) ∧
      (nonce ++ ct).take 12 = nonce ∧
      (nonce ++ ct).drop 12 = ct := by
  obtain ⟨kb64, keyBytes, hdec, hres, hblob⟩ :=
    encrypt_token_inv σ now freshId freshKey nonce token tenant blob kid σ1 henc
  refine ⟨aesgcmEncrypt keyBytes nonce token (tenantAAD tenant), hblob, ?_, ?_, ?_⟩
  · rw [hblob]
    exact encBlob_decode keyBytes nonce token tenant
      (b64decode_bytes_lt _ _ hdec) hnb htb htnb htl
  · rw [show (12 : Nat) = nonce.length from hnonce.symm, List.take_left]
  · rw [show (12 : Nat) = nonce.length from hnonce.symm, List.drop_left]

theorem C8_blob_format_witness :
    (wNonce.length = 12 ∧ validBytes wNonce ∧ validBytes wToken ∧
     validBytes wTenantA ∧ wTenantA.length < 249 ∧
     encrypt_token wState 5 [] [] wNonce wToken wTenantA
       = (Except.ok (wBlob, wKid), wS1)) ∧
    (∃ ct, wBlob = b64encode (wNonce ++ ct) ∧
      b64decode wBlob = some (wNonce ++ ct) ∧
      (wNonce ++ ct).take 12 = wNonce ∧
      (wNonce ++ ct).drop 12 = ct) :=
  ⟨⟨by decide, by decide, by decide, by decide, by decide, by decide⟩,
   C8_blob_format wState 5 [] [] wNonce wToken wTenantA wBlob wKid wS1
     (by decide) (by decide) (by decide) (by decide) (by decide) (by decide)⟩
